import Mathlib

/-!
Shallow embedding of the zeroconfig repository (a declarative configuration
layer for the zerolog structured-logging library) and proofs about it.

Source files embedded here: `config.go` (configuration structs, the writer
compiler registry, the writer assembly pipeline and logger assembly),
`adapters.go` (the Level-Windowed Writer `minMaxLevelWriter` and the
`levelWriterAdapter`), `config_js.go` (the js/wasm console writer compiler).

Conventions of the embedding:
* Go strings stay `String`; byte payloads are `List Nat`.
* zerolog's `Level` is an `int8`; levels used by the library are the nine
  constants `-1 .. 7`, compared with the integer order.  No arithmetic is
  performed on levels, so they are embedded as `Int`.
* A Go function receiving a pointer that it may mutate is embedded in
  state-passing style: it returns the updated value next to its result.
* Fallible Go functions returning `(T, error)` become `Except String T`;
  `fmt.Errorf` format strings are spelled out by concatenation, and `%q`
  is modelled by `goQuote` (surrounding double quotes; the escaping Go
  applies to exotic characters inside the tag is not modelled).
-/

namespace zerolog

/-- zerolog's `Level` is an `int8`; only the order and the constants below
are used by the code, so it is embedded as `Int`. -/
abbrev Level := Int

def TraceLevel : Level := -1

def DebugLevel : Level := 0

def InfoLevel : Level := 1

def WarnLevel : Level := 2

def ErrorLevel : Level := 3

def FatalLevel : Level := 4

def PanicLevel : Level := 5

/-- `NoLevel` is the sentinel meaning "no bound" for the min/max window. -/
def NoLevel : Level := 6

/-- `Disabled` suppresses all logging. -/
def Disabled : Level := 7

end zerolog

namespace zeroconfig

open zerolog

/-- Go's `%q` verb on the tag strings appearing in error messages:
the value surrounded by double quotes.  (Escaping of control characters
inside the string is not modelled; the tags in this development are plain.) -/
def goQuote (s : String) : String := "\"" ++ s ++ "\""

/-- `FileConfig` from config.go (options forwarded to lumberjack). -/
structure FileConfig where
  Filename : String := ""
  MaxSize : Int := 0
  MaxAge : Int := 0
  MaxBackups : Int := 0
  LocalTime : Bool := false
  Compress : Bool := false
  deriving Repr, DecidableEq

/-- `SyslogConfig` from config.go (options forwarded to `syslog.Dial`). -/
structure SyslogConfig where
  Network : String := ""
  Host : String := ""
  Flags : Int := 0
  Tag : String := ""
  deriving Repr, DecidableEq

/-- `WriterType` from config.go: a string tag naming a kind of writer. -/
abbrev WriterType := String

def WriterTypeStdout : WriterType := "stdout"

def WriterTypeStderr : WriterType := "stderr"

def WriterTypeFile : WriterType := "file"

def WriterTypeSyslog : WriterType := "syslog"

def WriterTypeSyslogCEE : WriterType := "syslog-cee"

def WriterTypeJournald : WriterType := "journald"

def WriterTypeJS : WriterType := "js"

/-- `LogFormat` from config.go: a string tag naming an output format. -/
abbrev LogFormat := String

def LogFormatJSON : LogFormat := "json"

def LogFormatPretty : LogFormat := "pretty"

def LogFormatPrettyColored : LogFormat := "pretty-colored"

/-- `WriterConfig` from config.go: the configuration of a single writer.
The Go field `Type` is a reserved word in Lean, so it is named `Type'`. -/
structure WriterConfig where
  Type' : WriterType := ""
  Format : LogFormat := ""
  MinLevel : Option Level := none
  MaxLevel : Option Level := none
  TimeFormat : String := ""
  Syslog : SyslogConfig := {}
  File : FileConfig := {}
  deriving Repr, DecidableEq

/-- The writer values the compilation pipeline can produce, as a syntax
tree: leaves are the concrete sinks from config.go / config_js.go, inner
nodes are the decorators (`zerolog.ConsoleWriter`, `minMaxLevelWriter`,
`zerolog.MultiLevelWriter`). -/
inductive IOWriter where
  | stdout : IOWriter
  | stderr : IOWriter
  | file (cfg : FileConfig) : IOWriter
  | jsConsole : IOWriter
  | console (Out : IOWriter) (NoColor : Bool) (TimeFormat : String) : IOWriter
  | minMax (inner : IOWriter) (MinLevel MaxLevel : Level) : IOWriter
  | multi (ws : List IOWriter) : IOWriter

/-- `MinMaxLevelWriter` from adapters.go: wraps a writer, limiting the log
levels that can pass through.  Construction is total: no validation of the
bounds is performed. -/
def MinMaxLevelWriter (writer : IOWriter) (minLevel maxLevel : Level) : IOWriter :=
  .minMax writer minLevel maxLevel

/-- `minMaxLevelWriter.WriteLevel` from adapters.go, in state-passing style.
`inner` is the behaviour of the wrapped `zerolog.LevelWriter` over an
abstract state `σ` (its `WriteLevel` returns a byte count, an optional
error, and the updated state).  The wrapper forwards iff the level is in
the window, where `zerolog.NoLevel` on either side means unbounded;
otherwise it reports success with the full payload length and leaves the
inner state untouched. -/
def minMaxWriteLevel {σ : Type} (inner : Level → List Nat → σ → (Nat × Option String) × σ)
    (MinLevel MaxLevel : Level) (l : Level) (p : List Nat) (s : σ) :
    (Nat × Option String) × σ :=
  if (MinLevel = zerolog.NoLevel ∨ MinLevel ≤ l) ∧ (MaxLevel = zerolog.NoLevel ∨ l ≤ MaxLevel) then
    inner l p s
  else
    ((p.length, none), s)

/-- A writer compiler, as in config.go's `WriterCompiler`
(`func(*WriterConfig) (io.Writer, error)`): the pointer argument may be
mutated, so the compiler returns the updated `WriterConfig` beside the
writer. -/
abbrev WriterCompiler := WriterConfig → Except String (IOWriter × WriterConfig)

/-- The mutable package-level map `writerCompilers`, embedded as an explicit
value threaded through the functions that consult it. -/
abbrev Registry := WriterType → Option WriterCompiler

/-- `compileUnsupported` from config.go. -/
def compileUnsupported : WriterCompiler := fun wc =>
  .error ("writer type " ++ goQuote wc.Type' ++ " not supported on this OS")

/-- `compileFile` from config.go.  The lumberjack logger construction is
pure; the initial `Rotate()` call is an external filesystem effect whose
failure case is outside this embedding, so the model takes its success
path. -/
def compileFile : WriterCompiler := fun wc =>
  .ok (.file wc.File, wc)

/-- The initial contents of the `writerCompilers` map from config.go
(the build without the unix `init` overrides). -/
def writerCompilers : Registry := fun t =>
  if t = WriterTypeStdout then some (fun wc => .ok (.stdout, wc))
  else if t = WriterTypeStderr then some (fun wc => .ok (.stderr, wc))
  else if t = WriterTypeFile then some compileFile
  else if t = WriterTypeJournald then some compileUnsupported
  else if t = WriterTypeSyslog then some compileUnsupported
  else if t = WriterTypeSyslogCEE then some compileUnsupported
  else none

/-- `RegisterWriter` from config.go: `writerCompilers[wt] = compiler`,
embedded as a function update of the registry state. -/
def RegisterWriter (reg : Registry) (wt : WriterType) (compiler : WriterCompiler) : Registry :=
  fun t => if t = wt then some compiler else reg t

/-- `compileJS` from config_js.go: overwrites the descriptor's format to
JSON (through the pointer, i.e. on the state-passed copy) and returns the
JS console writer. -/
def compileJS : WriterCompiler := fun wc =>
  .ok (.jsConsole, { wc with Format := LogFormatJSON })

/-- The registry state after config_js.go's `init` runs on the js/wasm
target: `writerCompilers[WriterTypeJS] = compileJS`. -/
def jsRegistry : Registry := RegisterWriter writerCompilers WriterTypeJS compileJS

/-- `WriterConfig.compileMain` from config.go: resolve the writer type in
the registry and run the compiler, or fail with `unknown writer type`. -/
def compileMain (reg : Registry) (wc : WriterConfig) : Except String (IOWriter × WriterConfig) :=
  match reg wc.Type' with
  | none => .error ("unknown writer type " ++ goQuote wc.Type')
  | some compiler => compiler wc

/-- `levelPtr` from config.go: a nil level pointer means `zerolog.NoLevel`. -/
def levelPtr : Option Level → Level
  | none => zerolog.NoLevel
  | some l => l

/-- The default `TimeFormat` installed on the console writer by
`WriterConfig.Compile` (RFC 3339 with millisecond precision). -/
def defaultTimeFormat : String := "2006-01-02T15:04:05.999Z07:00"

/-- The `switch wc.Format` step of `WriterConfig.Compile`: empty or
`json` pass the writer through, the pretty formats wrap it in a
`zerolog.ConsoleWriter` (no color exactly for `pretty`; time format from
the descriptor if non-empty, else the default), anything else fails. -/
def applyFormat (wc : WriterConfig) (output : IOWriter) : Except String IOWriter :=
  if wc.Format = "" ∨ wc.Format = LogFormatJSON then
    .ok output
  else if wc.Format = LogFormatPretty ∨ wc.Format = LogFormatPrettyColored then
    .ok (.console output (wc.Format = LogFormatPretty)
      (if wc.TimeFormat ≠ "" then wc.TimeFormat else defaultTimeFormat))
  else
    .error ("unknown format " ++ goQuote wc.Format)

/-- The final step of `WriterConfig.Compile`: if either level bound is
set, wrap in `MinMaxLevelWriter` (absent bound ↦ `zerolog.NoLevel`). -/
def applyLevels (wc : WriterConfig) (output : IOWriter) : IOWriter :=
  if wc.MinLevel.isSome ∨ wc.MaxLevel.isSome then
    MinMaxLevelWriter output (levelPtr wc.MinLevel) (levelPtr wc.MaxLevel)
  else
    output

/-- `WriterConfig.Compile` from config.go.  Note that the format switch
and the level-bound step read the descriptor as left by `compileMain`
(the registry compiler receives a pointer and may have mutated it). -/
def WriterConfig.Compile (wc : WriterConfig) (reg : Registry) :
    Except String (IOWriter × WriterConfig) := do
  let (output, wc) ← compileMain reg wc
  let output ← applyFormat wc output
  .ok (applyLevels wc output, wc)

/-- `Config` from config.go.  The Go `Metadata` field is a
`map[string]any`: an unordered mapping, embedded as an association list
whose order stands for the (arbitrary) iteration order of the map, with
distinct keys.  The value type `any` is a type parameter `μ`. -/
structure Config (μ : Type) where
  Writers : List WriterConfig := []
  MinLevel : Option Level := none
  Timestamp : Option Bool := none
  Caller : Bool := false
  Metadata : List (String × μ) := []

/-- Model of a `zerolog.Logger` as assembled by `Config.Compile`, keeping
exactly the state the configuration layer determines: the sink
(`none` stands for the discard writer that `zerolog.New(nil)` installs),
whether the timestamp and caller hooks are attached, the ordered context
fields, and the logger's minimum level (`zerolog.New` defaults it to
`TraceLevel`; `zerolog.Nop()` is `New(nil).Level(Disabled)`). -/
structure Logger (μ : Type) where
  sink : Option IOWriter
  hasTimestamp : Bool
  hasCaller : Bool
  fields : List (String × μ)
  level : Level

/-- `zerolog.Nop()`: a disabled logger on the discard writer. -/
def nopLogger {μ : Type} : Logger μ :=
  { sink := none, hasTimestamp := false, hasCaller := false, fields := [], level := zerolog.Disabled }

/-- Model of the external zerolog engine's emission test (zerolog v1.29):
a log call at level `l` produces observable output iff the sink is a real
writer (not the discard writer), the level is not `Disabled`
(`WithLevel(Disabled)` returns no event), and `l` is at least the
logger's level. -/
def Logger.shouldEmit {μ : Type} (lg : Logger μ) (l : Level) : Bool :=
  lg.sink.isSome && !(l == zerolog.Disabled) && (lg.level ≤ l)

/-- The observable output of a sequence of log calls `(level, message)`:
the subsequence of calls the logger actually emits. -/
def Logger.outputs {μ : Type} (lg : Logger μ) (calls : List (Level × String)) :
    List (Level × String) :=
  calls.filter (fun c => lg.shouldEmit c.1)

/-- The metadata-attachment loop of `Config.Compile`: collect the map's
keys, sort them (`sort.Strings` is ascending lexicographic order), and
attach each key with its value from the map.  The lookup along a key of
the map always succeeds, so `filterMap` keeps every sorted key. -/
def sortedMetaFields {μ : Type} (m : List (String × μ)) : List (String × μ) :=
  (List.insertionSort (fun a b : String => a ≤ b) (m.map Prod.fst)).filterMap
    (fun k => (m.lookup k).map (fun v => (k, v)))

/-- The writer loop of `Config.Compile`: compile each writer in order,
wrapping the first failure with the 1-based position of the failing
entry.  `idx` is the 1-based position of the head of the remaining list. -/
def compileWriterList (reg : Registry) : List WriterConfig → Nat → Except String (List IOWriter)
  | [], _ => .ok []
  | wc :: rest, idx =>
    match wc.Compile reg with
    | .error e => .error ("failed to parse config for writer #" ++ toString idx ++ ": " ++ e)
    | .ok (w, _) =>
      match compileWriterList reg rest (idx + 1) with
      | .error e => .error e
      | .ok ws => .ok (w :: ws)

/-- The fan-out step of `Config.Compile`: zero writers leave the sink nil
(so `zerolog.New` installs the discard writer), one writer is used
directly, several are combined with `zerolog.MultiLevelWriter`. -/
def fanOut (ws : List IOWriter) : Option IOWriter :=
  match ws with
  | [] => none
  | [w] => some w
  | ws => some (.multi ws)

/-- `Config.Compile` from config.go.  An empty writer list or a global
minimum level of `Disabled` short-circuits to `zerolog.Nop()`.  Otherwise
every writer is compiled (any failure aborts with a positional error and
no logger), the writers are fanned out, and the global options are
attached: timestamp unless explicitly disabled, caller if requested,
metadata sorted by key when non-empty, and the global minimum level if
set (else the `TraceLevel` default of `zerolog.New`). -/
def Config.Compile {μ : Type} (c : Config μ) (reg : Registry) : Except String (Logger μ) :=
  if c.Writers.isEmpty ∨ c.MinLevel = some zerolog.Disabled then
    .ok nopLogger
  else
    match compileWriterList reg c.Writers 1 with
    | .error e => .error e
    | .ok ws =>
      .ok {
        sink := fanOut ws
        hasTimestamp := c.Timestamp.getD true
        hasCaller := c.Caller
        fields := if 0 < c.Metadata.length then sortedMetaFields c.Metadata else []
        level := c.MinLevel.getD zerolog.TraceLevel }

/-- `Config.Compile` with the Go store semantics made explicit: the
receiver is threaded as state and returned beside the result.  The Go
loop `for i, wc := range c.Writers` binds `wc` to a fresh copy of each
element and hands `&wc` (the copy) to the registry compiler, so any
update a compiler performs lands in the discarded copy; nothing in the
function writes through `c`, so the post-state is the receiver itself. -/
def Config.CompileWithState {μ : Type} (c : Config μ) (reg : Registry) :
    Except String (Logger μ) × Config μ :=
  (c.Compile reg, c)

/-! ### Theorems -/

/-- Helper: unfolding `WriterConfig.Compile` when both the registry step
and the format step succeed. -/
theorem WriterConfig.compile_eq_ok {reg : Registry} {wc wc₁ : WriterConfig}
    {out fmtOut : IOWriter}
    (hmain : compileMain reg wc = .ok (out, wc₁))
    (hfmt : applyFormat wc₁ out = .ok fmtOut) :
    wc.Compile reg = .ok (applyLevels wc₁ fmtOut, wc₁) := by
  simp [WriterConfig.Compile, hmain, hfmt, Except.bind, Bind.bind]

/-- Helper: `WriterConfig.Compile` propagates a registry-step failure. -/
theorem WriterConfig.compile_eq_error_main {reg : Registry} {wc : WriterConfig} {e : String}
    (hmain : compileMain reg wc = .error e) :
    wc.Compile reg = .error e := by
  simp [WriterConfig.Compile, hmain, Except.bind, Bind.bind]

/-- Helper: `WriterConfig.Compile` propagates a format-step failure. -/
theorem WriterConfig.compile_eq_error_fmt {reg : Registry} {wc wc₁ : WriterConfig}
    {out : IOWriter} {e : String}
    (hmain : compileMain reg wc = .ok (out, wc₁))
    (hfmt : applyFormat wc₁ out = .error e) :
    wc.Compile reg = .error e := by
  simp [WriterConfig.Compile, hmain, hfmt, Except.bind, Bind.bind]

/-- Helper: the format step on a pretty format tag builds the console
decorator with the descriptor's time format if non-empty, else the
default. -/
theorem applyFormat_pretty {wc : WriterConfig} {out : IOWriter}
    (hfmt : wc.Format = LogFormatPretty ∨ wc.Format = LogFormatPrettyColored) :
    applyFormat wc out = .ok (.console out (wc.Format = LogFormatPretty)
      (if wc.TimeFormat ≠ "" then wc.TimeFormat else defaultTimeFormat)) := by
  have h1 : ¬ (wc.Format = "" ∨ wc.Format = LogFormatJSON) := by
    rcases hfmt with h | h <;> rw [h] <;> decide
  rw [applyFormat, if_neg h1, if_pos hfmt]

/-- C1 (counterexample): the Level-Windowed Writer does NOT always return
success with byte count `p.length`: on a forwarded write it returns the
inner writer's result verbatim.  With an unbounded window (so the write is
forwarded) and an inner writer that reports a failure with 0 bytes
written, `WriteLevel` reports that failure, not success with `p.length`. -/
theorem minMaxWriteLevel_not_always_success :
    (minMaxWriteLevel (fun (_ : Level) (_ : List Nat) (s : Unit) => ((0, some "write failed"), s))
        zerolog.NoLevel zerolog.NoLevel zerolog.InfoLevel [1, 2, 3] ()).1 ≠
      (([1, 2, 3] : List Nat).length, (none : Option String)) := by
  decide

/-- C1 (amended): for every pair of severity bounds and every severity `L`
and payload `p`, `WriteLevel` forwards `p` to the inner writer iff
`(min is the unbounded sentinel or L ≥ min) and (max is the unbounded
sentinel or L ≤ max)`; when it does not forward it returns success with a
byte count equal to the length of `p` and leaves the inner writer
untouched, and when it forwards it returns exactly the inner writer's
result (hence success with byte count `p.length` whenever the inner
writer reports that). -/
theorem minMaxWriteLevel_forward_iff {σ : Type}
    (inner : Level → List Nat → σ → (Nat × Option String) × σ)
    (MinLevel MaxLevel l : Level) (p : List Nat) (s : σ) :
    (((MinLevel = zerolog.NoLevel ∨ MinLevel ≤ l) ∧
        (MaxLevel = zerolog.NoLevel ∨ l ≤ MaxLevel)) →
      minMaxWriteLevel inner MinLevel MaxLevel l p s = inner l p s) ∧
    (¬ ((MinLevel = zerolog.NoLevel ∨ MinLevel ≤ l) ∧
        (MaxLevel = zerolog.NoLevel ∨ l ≤ MaxLevel)) →
      minMaxWriteLevel inner MinLevel MaxLevel l p s = ((p.length, none), s)) := by
  constructor
  · intro h
    rw [minMaxWriteLevel, if_pos h]
  · intro h
    rw [minMaxWriteLevel, if_neg h]

/-- Witness for `minMaxWriteLevel_forward_iff`: with window
`[debug, warn]`, an info write is forwarded to a recording inner writer
(its trace grows) and a panic write is filtered with success and byte
count 2, leaving the trace empty. -/
theorem minMaxWriteLevel_forward_iff_witness :
    minMaxWriteLevel
        (fun (l : Level) (p : List Nat) (s : List (Level × List Nat)) =>
          ((p.length, none), s ++ [(l, p)]))
        zerolog.DebugLevel zerolog.WarnLevel zerolog.InfoLevel [7] [] =
      (([7].length, none), [(zerolog.InfoLevel, [7])]) ∧
    minMaxWriteLevel
        (fun (l : Level) (p : List Nat) (s : List (Level × List Nat)) =>
          ((p.length, none), s ++ [(l, p)]))
        zerolog.DebugLevel zerolog.WarnLevel zerolog.PanicLevel [4, 5] [] =
      (([4, 5].length, none), []) :=
  ⟨(minMaxWriteLevel_forward_iff _ zerolog.DebugLevel zerolog.WarnLevel zerolog.InfoLevel
      [7] []).1 (by decide),
   (minMaxWriteLevel_forward_iff _ zerolog.DebugLevel zerolog.WarnLevel zerolog.PanicLevel
      [4, 5] []).2 (by decide)⟩

/-- C4: with both bounds bounded (not the unbounded sentinel) and
`min > max`, construction is accepted without any validation error (a
stdout descriptor with those bounds compiles successfully into a
Level-Windowed Writer) and the resulting writer forwards no record of any
severity, each write still reporting success with the payload length; and
with both bounds unbounded every severity is forwarded. -/
theorem minMax_inverted_filters_all (MinLevel MaxLevel : Level)
    (hmin : MinLevel ≠ zerolog.NoLevel) (hmax : MaxLevel ≠ zerolog.NoLevel)
    (hlt : MaxLevel < MinLevel) :
    (∀ {σ : Type} (inner : Level → List Nat → σ → (Nat × Option String) × σ)
        (l : Level) (p : List Nat) (s : σ),
      minMaxWriteLevel inner MinLevel MaxLevel l p s = ((p.length, none), s)) ∧
    (∀ wc : WriterConfig, wc.Type' = WriterTypeStdout → wc.Format = "" →
        wc.MinLevel = some MinLevel → wc.MaxLevel = some MaxLevel →
      wc.Compile writerCompilers = .ok (.minMax .stdout MinLevel MaxLevel, wc)) ∧
    (∀ {σ : Type} (inner : Level → List Nat → σ → (Nat × Option String) × σ)
        (l : Level) (p : List Nat) (s : σ),
      minMaxWriteLevel inner zerolog.NoLevel zerolog.NoLevel l p s = inner l p s) := by
  refine ⟨?_, ?_, ?_⟩
  · intro σ inner l p s
    rw [minMaxWriteLevel, if_neg]
    rintro ⟨h1 | h1, h2 | h2⟩ <;>
      first
      | exact hmin h1
      | exact hmax h2
      | exact absurd (le_trans h1 h2) (not_le.mpr hlt)
  · intro wc hT hF hm hM
    obtain ⟨T, F, mn, mx, tf, sy, fi⟩ := wc
    simp only at hT hF hm hM
    subst hT hF hm hM
    rfl
  · intro σ inner l p s
    rw [minMaxWriteLevel, if_pos ⟨Or.inl rfl, Or.inl rfl⟩]

/-- Witness for `minMax_inverted_filters_all`: the window `[warn, debug]`
(min > max) filters an info write, reporting success with byte count 2
and leaving the recording inner writer untouched, and a stdout descriptor
with those bounds compiles without error. -/
theorem minMax_inverted_filters_all_witness :
    minMaxWriteLevel
        (fun (l : Level) (p : List Nat) (s : List (Level × List Nat)) =>
          ((p.length, none), s ++ [(l, p)]))
        zerolog.WarnLevel zerolog.DebugLevel zerolog.InfoLevel [4, 5] [] =
      (([4, 5].length, none), []) ∧
    WriterConfig.Compile
        { Type' := WriterTypeStdout, MinLevel := some zerolog.WarnLevel,
          MaxLevel := some zerolog.DebugLevel } writerCompilers =
      .ok (.minMax .stdout zerolog.WarnLevel zerolog.DebugLevel,
        { Type' := WriterTypeStdout, MinLevel := some zerolog.WarnLevel,
          MaxLevel := some zerolog.DebugLevel }) :=
  ⟨(minMax_inverted_filters_all zerolog.WarnLevel zerolog.DebugLevel
      (by decide) (by decide) (by decide)).1 _ _ _ _,
   (minMax_inverted_filters_all zerolog.WarnLevel zerolog.DebugLevel
      (by decide) (by decide) (by decide)).2.1 _ rfl rfl rfl rfl⟩

/-- C8: registering a compiler for a kind inserts or overwrites the
mapping with no conflict error: after registering `c1` then `c2` for the
same tag the registry resolves that tag to `c2` (and `compileMain`
invokes `c2`), after a single registration it resolves to that compiler,
other tags are untouched, and no entry is ever removed. -/
theorem registerWriter_last_wins (reg : Registry) (wt : WriterType)
    (c1 c2 : WriterCompiler) :
    RegisterWriter (RegisterWriter reg wt c1) wt c2 wt = some c2 ∧
    RegisterWriter reg wt c1 wt = some c1 ∧
    (∀ t, t ≠ wt → RegisterWriter reg wt c1 t = reg t) ∧
    (∀ t, (reg t).isSome → (RegisterWriter reg wt c1 t).isSome) ∧
    (∀ wc : WriterConfig, wc.Type' = wt →
      compileMain (RegisterWriter (RegisterWriter reg wt c1) wt c2) wc = c2 wc) := by
  refine ⟨?_, ?_, ?_, ?_, ?_⟩
  · rw [RegisterWriter, if_pos rfl]
  · rw [RegisterWriter, if_pos rfl]
  · intro t ht
    rw [RegisterWriter, if_neg ht]
  · intro t ht
    rw [RegisterWriter]
    split
    · rfl
    · exact ht
  · intro wc hwc
    rw [compileMain, RegisterWriter, if_pos hwc]

/-- Witness for `registerWriter_last_wins`: registering for the js tag
twice resolves to the second compiler, and the stdout entry is untouched
by a registration for the js tag. -/
theorem registerWriter_last_wins_witness :
    RegisterWriter (RegisterWriter writerCompilers WriterTypeJS compileUnsupported)
        WriterTypeJS compileJS WriterTypeJS = some compileJS ∧
    RegisterWriter writerCompilers WriterTypeJS compileUnsupported WriterTypeStdout =
      writerCompilers WriterTypeStdout :=
  ⟨(registerWriter_last_wins writerCompilers WriterTypeJS compileUnsupported compileJS).1,
   (registerWriter_last_wins writerCompilers WriterTypeJS compileUnsupported compileJS).2.2.1
     WriterTypeStdout (by decide)⟩

/-- C2: a configuration with no writers, or with global minimum severity
`Disabled`, compiles successfully to the no-op logger, which produces no
observable output for any sequence of log calls, regardless of all other
configuration fields. -/
theorem compile_nop_of_empty_or_disabled {μ : Type} (reg : Registry) (c : Config μ)
    (h : c.Writers = [] ∨ c.MinLevel = some zerolog.Disabled) :
    c.Compile reg = .ok nopLogger ∧
    ∀ calls : List (Level × String), Logger.outputs (nopLogger : Logger μ) calls = [] := by
  constructor
  · rw [Config.Compile, if_pos]
    rcases h with h | h
    · exact Or.inl (by simp [h])
    · exact Or.inr h
  · intro calls
    simp [Logger.outputs, Logger.shouldEmit, nopLogger]

/-- Witness for `compile_nop_of_empty_or_disabled`: the empty-writers
configuration compiles to the no-op logger and an error-level call
produces no output; so does a stdout configuration whose global level is
`Disabled`. -/
theorem compile_nop_of_empty_or_disabled_witness :
    Config.Compile ({ Writers := [] } : Config Unit) writerCompilers = .ok nopLogger ∧
    Logger.outputs (nopLogger : Logger Unit) [(zerolog.ErrorLevel, "boom")] = [] ∧
    Config.Compile
      ({ Writers := [{ Type' := WriterTypeStdout }],
         MinLevel := some zerolog.Disabled } : Config Unit) writerCompilers = .ok nopLogger :=
  ⟨(compile_nop_of_empty_or_disabled writerCompilers { Writers := [] } (Or.inl rfl)).1,
   (compile_nop_of_empty_or_disabled writerCompilers ({ Writers := [] } : Config Unit)
     (Or.inl rfl)).2 _,
   (compile_nop_of_empty_or_disabled writerCompilers
     { Writers := [{ Type' := WriterTypeStdout }], MinLevel := some zerolog.Disabled }
     (Or.inr rfl)).1⟩

/-- C5: when the registry and format steps succeed, `WriterConfig.Compile`
wraps the formatted writer in a Level-Windowed Writer exactly when at
least one severity bound is present on the descriptor, with an absent
bound mapped by `levelPtr` to the unbounded sentinel `zerolog.NoLevel`;
with neither bound present the formatted writer is returned unwrapped. -/
theorem compile_wraps_minMax_iff_bounds (reg : Registry) (wc wc₁ : WriterConfig)
    (out fmtOut : IOWriter)
    (hmain : compileMain reg wc = .ok (out, wc₁))
    (hfmt : applyFormat wc₁ out = .ok fmtOut) :
    wc.Compile reg = .ok
      ((if wc₁.MinLevel.isSome ∨ wc₁.MaxLevel.isSome then
          IOWriter.minMax fmtOut (levelPtr wc₁.MinLevel) (levelPtr wc₁.MaxLevel)
        else fmtOut), wc₁) ∧
    levelPtr none = zerolog.NoLevel ∧ (∀ l : Level, levelPtr (some l) = l) := by
  refine ⟨?_, rfl, fun _ => rfl⟩
  rw [WriterConfig.compile_eq_ok hmain hfmt]
  simp only [applyLevels, MinMaxLevelWriter]

/-- Witness for `compile_wraps_minMax_iff_bounds`: a stdout descriptor
with only a minimum bound compiles to a Level-Windowed Writer whose
maximum side is the unbounded sentinel, and one with no bounds compiles
to the bare stdout writer. -/
theorem compile_wraps_minMax_iff_bounds_witness :
    WriterConfig.Compile
        { Type' := WriterTypeStdout, MinLevel := some zerolog.InfoLevel } writerCompilers =
      .ok (.minMax .stdout zerolog.InfoLevel zerolog.NoLevel,
        { Type' := WriterTypeStdout, MinLevel := some zerolog.InfoLevel }) ∧
    WriterConfig.Compile { Type' := WriterTypeStdout } writerCompilers =
      .ok (.stdout, { Type' := WriterTypeStdout }) := by
  constructor
  · rw [(compile_wraps_minMax_iff_bounds writerCompilers
      { Type' := WriterTypeStdout, MinLevel := some zerolog.InfoLevel }
      { Type' := WriterTypeStdout, MinLevel := some zerolog.InfoLevel }
      .stdout .stdout rfl rfl).1]
    rfl
  · rw [(compile_wraps_minMax_iff_bounds writerCompilers
      { Type' := WriterTypeStdout } { Type' := WriterTypeStdout }
      .stdout .stdout rfl rfl).1]
    rfl

/-- C7: for a descriptor carrying a pretty or pretty-colored format tag
(once the registry step has run), the console decorator's timestamp
pattern is the descriptor's custom `TimeFormat` when that field is
non-empty and otherwise the fixed default pattern
`2006-01-02T15:04:05.999Z07:00` (RFC 3339 with millisecond precision). -/
theorem console_time_format (reg : Registry) (wc wc₁ : WriterConfig) (out : IOWriter)
    (hmain : compileMain reg wc = .ok (out, wc₁))
    (hfmt : wc₁.Format = LogFormatPretty ∨ wc₁.Format = LogFormatPrettyColored) :
    wc.Compile reg = .ok
      (applyLevels wc₁ (.console out (wc₁.Format = LogFormatPretty)
        (if wc₁.TimeFormat ≠ "" then wc₁.TimeFormat else defaultTimeFormat)), wc₁) ∧
    defaultTimeFormat = "2006-01-02T15:04:05.999Z07:00" :=
  ⟨WriterConfig.compile_eq_ok hmain (applyFormat_pretty hfmt), rfl⟩

/-- Witness for `console_time_format`: a pretty stdout descriptor with a
custom time format keeps it, and one without gets the default pattern. -/
theorem console_time_format_witness :
    WriterConfig.Compile
        { Type' := WriterTypeStdout, Format := LogFormatPretty, TimeFormat := "2006" }
        writerCompilers =
      .ok (.console .stdout true "2006",
        { Type' := WriterTypeStdout, Format := LogFormatPretty, TimeFormat := "2006" }) ∧
    WriterConfig.Compile
        { Type' := WriterTypeStdout, Format := LogFormatPrettyColored } writerCompilers =
      .ok (.console .stdout false defaultTimeFormat,
        { Type' := WriterTypeStdout, Format := LogFormatPrettyColored }) := by
  constructor
  · rw [(console_time_format writerCompilers
      { Type' := WriterTypeStdout, Format := LogFormatPretty, TimeFormat := "2006" }
      { Type' := WriterTypeStdout, Format := LogFormatPretty, TimeFormat := "2006" }
      .stdout rfl (Or.inl rfl)).1]
    rfl
  · rw [(console_time_format writerCompilers
      { Type' := WriterTypeStdout, Format := LogFormatPrettyColored }
      { Type' := WriterTypeStdout, Format := LogFormatPrettyColored }
      .stdout rfl (Or.inr rfl)).1]
    rfl

/-- C9: on the js/wasm target (registry state after config_js.go's
`init`), compiling a writer descriptor of kind `js` overwrites the
descriptor copy's format to the JSON tag before the format switch runs,
so whatever the descriptor's format tag was — pretty tags or tags unknown
elsewhere — compilation succeeds through the JSON path to the JS console
writer (wrapped only by the level window when bounds are present), and
never fails with an unknown-format error. -/
theorem js_writer_forces_json (wc : WriterConfig) (h : wc.Type' = WriterTypeJS) :
    wc.Compile jsRegistry =
      .ok (applyLevels { wc with Format := LogFormatJSON } IOWriter.jsConsole,
        { wc with Format := LogFormatJSON }) ∧
    ∀ e, wc.Compile jsRegistry ≠ .error e := by
  have hmain : compileMain jsRegistry wc = .ok (.jsConsole, { wc with Format := LogFormatJSON }) := by
    rw [compileMain, jsRegistry, RegisterWriter, if_pos h]
    rfl
  have hfmt : applyFormat { wc with Format := LogFormatJSON } IOWriter.jsConsole =
      .ok IOWriter.jsConsole := by
    rw [applyFormat, if_pos (Or.inr rfl)]
  have hc := WriterConfig.compile_eq_ok hmain hfmt
  exact ⟨hc, fun e he => by rw [hc] at he; cases he⟩

/-- Witness for `js_writer_forces_json`: a js descriptor whose format tag
is the (otherwise rejected) string `garbage` compiles successfully to the
JS console writer with its format forced to `json`. -/
theorem js_writer_forces_json_witness :
    WriterConfig.Compile { Type' := WriterTypeJS, Format := "garbage" } jsRegistry =
      .ok (.jsConsole, { Type' := WriterTypeJS, Format := LogFormatJSON }) := by
  rw [(js_writer_forces_json { Type' := WriterTypeJS, Format := "garbage" } rfl).1]
  rfl

/-- C10: `Config.Compile` never mutates the configuration it is invoked
on.  In the embedding the Go store is threaded explicitly:
`CompileWithState` returns the post-state of the receiver beside the
result, and that post-state is the original configuration for every
registry — including registries whose compilers rewrite the descriptor
copy they are handed (the `range` loop passes each compiler a by-value
copy, never a pointer into `c.Writers`). -/
theorem compile_preserves_config {μ : Type} (reg : Registry) (c : Config μ) :
    (c.CompileWithState reg).2 = c ∧ (c.CompileWithState reg).1 = c.Compile reg :=
  ⟨rfl, rfl⟩

/-- Helper: an unresolved writer kind makes `compileMain` fail naming the
kind tag. -/
theorem compileMain_unknown {reg : Registry} {wc : WriterConfig}
    (h : reg wc.Type' = none) :
    compileMain reg wc = .error ("unknown writer type " ++ goQuote wc.Type') := by
  rw [compileMain, h]

/-- Helper: a format tag that is neither empty, `json`, `pretty` nor
`pretty-colored` makes the format step fail naming the tag. -/
theorem applyFormat_unknown {wc : WriterConfig} {out : IOWriter}
    (h1 : ¬ (wc.Format = "" ∨ wc.Format = LogFormatJSON))
    (h2 : ¬ (wc.Format = LogFormatPretty ∨ wc.Format = LogFormatPrettyColored)) :
    applyFormat wc out = .error ("unknown format " ++ goQuote wc.Format) := by
  rw [applyFormat, if_neg h1, if_neg h2]

/-- Helper: the unfolding equation of the writer loop on a non-empty
list. -/
theorem compileWriterList_cons (reg : Registry) (wc : WriterConfig)
    (rest : List WriterConfig) (idx : Nat) :
    compileWriterList reg (wc :: rest) idx =
      match wc.Compile reg with
      | .error e => .error ("failed to parse config for writer #" ++ toString idx ++ ": " ++ e)
      | .ok (w, _) =>
        match compileWriterList reg rest (idx + 1) with
        | .error e => .error e
        | .ok ws => .ok (w :: ws) := rfl

/-- Helper: the writer loop reaches the first failing entry and wraps its
error with that entry's 1-based position. -/
theorem compileWriterList_append_error (reg : Registry) (post : List WriterConfig)
    (bad : WriterConfig) (e : String)
    (hbad : bad.Compile reg = .error e) :
    ∀ (pre : List WriterConfig) (idx : Nat),
      (∀ wc ∈ pre, ∃ r, wc.Compile reg = .ok r) →
      compileWriterList reg (pre ++ bad :: post) idx =
        .error ("failed to parse config for writer #" ++ toString (pre.length + idx) ++ ": " ++ e) := by
  intro pre
  induction pre with
  | nil =>
    intro idx _
    simp [compileWriterList, hbad]
  | cons wc t ih =>
    intro idx hpre
    obtain ⟨⟨w, wc'⟩, hr⟩ := hpre wc (by simp)
    have ht : ∀ x ∈ t, ∃ r, x.Compile reg = .ok r := fun x hx => hpre x (by simp [hx])
    have harith : t.length + (idx + 1) = (wc :: t).length + idx := by
      simp only [List.length_cons]
      omega
    rw [List.cons_append, compileWriterList_cons, hr, ih (idx + 1) ht, harith]

/-- C3 (counterexample): a configuration containing a writer descriptor
whose kind tag does not resolve in the registry does NOT always fail:
when the global minimum severity is the `Disabled` sentinel,
`Config.Compile` short-circuits to the no-op logger before looking at any
writer, and succeeds. -/
theorem compile_disabled_ignores_unknown_writer :
    Config.Compile
        ({ Writers := [{ Type' := "bogus" }],
           MinLevel := some zerolog.Disabled } : Config Unit) writerCompilers =
      .ok nopLogger := by
  rw [Config.Compile, if_pos (Or.inr rfl)]

/-- C3 (amended): for every configuration whose global minimum severity is
not the `Disabled` sentinel, containing a writer descriptor whose kind tag
does not resolve in the registry or whose format tag (as seen after the
registry step) is unknown, and whose earlier writer entries all compile,
`Config.Compile` fails: no logger is returned, and the error text names
the 1-based position of the offending writer entry and the bad tag value
(quoted). -/
theorem compile_error_names_position_and_tag {μ : Type} (reg : Registry) (c : Config μ)
    (pre post : List WriterConfig) (bad : WriterConfig)
    (hmin : c.MinLevel ≠ some zerolog.Disabled)
    (hw : c.Writers = pre ++ bad :: post)
    (hpre : ∀ wc ∈ pre, ∃ r, wc.Compile reg = .ok r)
    (hbad : reg bad.Type' = none ∨
      ∃ out wc₁, compileMain reg bad = .ok (out, wc₁) ∧
        ¬ (wc₁.Format = "" ∨ wc₁.Format = LogFormatJSON) ∧
        ¬ (wc₁.Format = LogFormatPretty ∨ wc₁.Format = LogFormatPrettyColored)) :
    (∀ lg, c.Compile reg ≠ .ok lg) ∧
    ∃ e, c.Compile reg =
        .error ("failed to parse config for writer #" ++ toString (pre.length + 1) ++ ": " ++ e) ∧
      ((reg bad.Type' = none ∧ e = "unknown writer type " ++ goQuote bad.Type') ∨
       ∃ out wc₁, compileMain reg bad = .ok (out, wc₁) ∧
         e = "unknown format " ++ goQuote wc₁.Format) := by
  have hcond : ¬ (c.Writers.isEmpty ∨ c.MinLevel = some zerolog.Disabled) := by
    rintro (h | h)
    · rw [hw] at h
      simp [List.isEmpty_iff] at h
    · exact hmin h
  obtain ⟨e, hbadc, hcase⟩ :
      ∃ e, bad.Compile reg = .error e ∧
        ((reg bad.Type' = none ∧ e = "unknown writer type " ++ goQuote bad.Type') ∨
         ∃ out wc₁, compileMain reg bad = .ok (out, wc₁) ∧
           e = "unknown format " ++ goQuote wc₁.Format) := by
    rcases hbad with h | ⟨out, wc₁, hm, h1, h2⟩
    · exact ⟨_, WriterConfig.compile_eq_error_main (compileMain_unknown h), Or.inl ⟨h, rfl⟩⟩
    · exact ⟨_, WriterConfig.compile_eq_error_fmt hm (applyFormat_unknown h1 h2),
        Or.inr ⟨out, wc₁, hm, rfl⟩⟩
  have hcc : c.Compile reg =
      .error ("failed to parse config for writer #" ++ toString (pre.length + 1) ++ ": " ++ e) := by
    rw [Config.Compile, if_neg hcond, hw,
      compileWriterList_append_error reg post bad e hbadc pre 1 hpre]
  refine ⟨fun lg h => ?_, ⟨e, hcc, hcase⟩⟩
  rw [hcc] at h
  cases h

/-- Witness for `compile_error_names_position_and_tag`: a configuration
whose second writer has the unknown kind `bogus` (the first being a valid
stdout writer) fails compilation with the error text
`failed to parse config for writer #2: unknown writer type "bogus"`. -/
theorem compile_error_names_position_and_tag_witness :
    Config.Compile
        ({ Writers := [{ Type' := WriterTypeStdout }, { Type' := "bogus" }] } : Config Unit)
        writerCompilers =
      .error "failed to parse config for writer #2: unknown writer type \"bogus\"" := by
  obtain ⟨-, e, hcc, hcase⟩ := compile_error_names_position_and_tag writerCompilers
    ({ Writers := [{ Type' := WriterTypeStdout }, { Type' := "bogus" }] } : Config Unit)
    [{ Type' := WriterTypeStdout }] [] { Type' := "bogus" }
    (by decide) rfl
    (by
      rintro wc hwc
      simp only [List.mem_singleton] at hwc
      subst hwc
      exact ⟨(.stdout, _), rfl⟩)
    (Or.inl rfl)
  rcases hcase with ⟨-, he⟩ | ⟨out, wc₁, hm, -⟩
  · rw [he] at hcc
    exact hcc
  · rw [compileMain_unknown rfl] at hm
    cases hm

/-- Helper: `List.lookup` along a key present in the key list succeeds. -/
theorem lookup_isSome_of_mem_keys {μ : Type} {m : List (String × μ)} {k : String}
    (h : k ∈ m.map Prod.fst) : ∃ v, m.lookup k = some v := by
  induction m with
  | nil => simp at h
  | cons x t ih =>
    simp only [List.map_cons, List.mem_cons] at h
    by_cases heq : k = x.1
    · exact ⟨x.2, by simp [List.lookup, heq]⟩
    · have hm : k ∈ t.map Prod.fst := by
        rcases h with h | h
        · exact absurd h heq
        · exact h
      obtain ⟨v, hv⟩ := ih hm
      exact ⟨v, by simp [List.lookup, beq_eq_false_iff_ne.mpr heq, hv]⟩

/-- Helper: `List.lookup` is invariant under permutation of an
association list with distinct keys (the Go map's iteration order does
not affect map access). -/
theorem lookup_eq_of_perm {μ : Type} {l₁ l₂ : List (String × μ)}
    (h : List.Perm l₁ l₂) (hn : (l₁.map Prod.fst).Nodup) (a : String) :
    l₁.lookup a = l₂.lookup a := by
  induction h with
  | nil => rfl
  | cons x h ih =>
    simp only [List.map_cons, List.nodup_cons] at hn
    simp only [List.lookup]
    cases a == x.1 with
    | true => rfl
    | false => exact ih hn.2
  | swap x y t =>
    simp only [List.map_cons, List.nodup_cons, List.mem_cons] at hn
    have hyx : y.1 ≠ x.1 := fun he => hn.1 (Or.inl he)
    simp only [List.lookup]
    cases hay : a == y.1 with
    | true =>
      have hax : (a == x.1) = false :=
        beq_eq_false_iff_ne.mpr (fun he => hyx ((eq_of_beq hay).symm.trans he))
      rw [hax]
    | false =>
      cases hax : a == x.1 with
      | true => simp [List.lookup, hay]
      | false => simp [List.lookup, hay, hax]
  | trans h₁ h₂ ih₁ ih₂ =>
    exact (ih₁ hn).trans (ih₂ (((h₁.map Prod.fst).nodup_iff).mp hn))

/-- Helper: the sorted-metadata step is invariant under permutation of
the metadata association list (distinct keys): the sorted key sequences
coincide and every lookup coincides. -/
theorem sortedMetaFields_perm_eq {μ : Type} {m₁ m₂ : List (String × μ)}
    (h : List.Perm m₁ m₂) (hn : (m₁.map Prod.fst).Nodup) :
    sortedMetaFields m₁ = sortedMetaFields m₂ := by
  have hkeys : List.insertionSort (fun a b : String => a ≤ b) (m₁.map Prod.fst) =
      List.insertionSort (fun a b : String => a ≤ b) (m₂.map Prod.fst) :=
    List.eq_of_perm_of_sorted
      ((List.perm_insertionSort _ _).trans
        ((h.map Prod.fst).trans (List.perm_insertionSort _ _).symm))
      (List.sorted_insertionSort _ _) (List.sorted_insertionSort _ _)
  rw [sortedMetaFields, sortedMetaFields, hkeys]
  congr 1
  funext k
  rw [lookup_eq_of_perm h hn k]

/-- Helper: looking up each key of a key list (all present in the map)
and pairing it with its value yields a list whose keys are exactly the
key list. -/
theorem map_fst_filterMap_lookup {μ : Type} (m : List (String × μ)) :
    ∀ ks : List String, (∀ k ∈ ks, ∃ v, m.lookup k = some v) →
      (ks.filterMap (fun k => (m.lookup k).map (fun v => (k, v)))).map Prod.fst = ks := by
  intro ks
  induction ks with
  | nil => intro _; rfl
  | cons k t ih =>
    intro h
    obtain ⟨v, hv⟩ := h k (by simp)
    rw [List.filterMap_cons, hv]
    simp only [Option.map_some', List.map_cons]
    rw [ih (fun x hx => h x (by simp [hx]))]

/-- C6 (counterexample): a configuration with a non-empty metadata
mapping but an empty writers list compiles to the no-op logger, to which
no metadata fields at all are attached — the fields are not present in
sorted order or any order. -/
theorem metadata_skipped_for_nop :
    Config.Compile
        ({ Writers := [], Metadata := [("b", 0), ("a", 1)] } : Config Nat) writerCompilers =
      .ok nopLogger ∧
    (nopLogger : Logger Nat).fields = [] ∧
    ([("b", 0), ("a", 1)] : List (String × Nat)) ≠ [] :=
  ⟨rfl, rfl, by decide⟩

/-- C6 (amended): for every configuration with a non-empty metadata
mapping (distinct keys) that does not short-circuit to the no-op logger
(non-empty writers, global minimum severity not `Disabled`),
`Config.Compile` attaches the metadata fields in lexicographically sorted
order of their keys with the values the mapping holds, and compilation is
invariant under the mapping's iteration order, so repeated compilations
produce the fields in the same deterministic order. -/
theorem metadata_sorted_deterministic {μ : Type} (reg : Registry) (c : Config μ)
    (m₁ m₂ : List (String × μ))
    (hn : (m₁.map Prod.fst).Nodup) (hperm : List.Perm m₁ m₂)
    (hne : m₁ ≠ []) (hw : c.Writers ≠ []) (hmin : c.MinLevel ≠ some zerolog.Disabled) :
    Config.Compile { c with Metadata := m₁ } reg =
      Config.Compile { c with Metadata := m₂ } reg ∧
    ∀ lg, Config.Compile { c with Metadata := m₁ } reg = .ok lg →
      lg.fields.map Prod.fst =
          List.insertionSort (fun a b : String => a ≤ b) (m₁.map Prod.fst) ∧
      List.Sorted (fun a b : String => a ≤ b) (lg.fields.map Prod.fst) ∧
      ∀ k v, (k, v) ∈ lg.fields → m₁.lookup k = some v := by
  constructor
  · simp only [Config.Compile]
    rw [hperm.length_eq, sortedMetaFields_perm_eq hperm hn]
  · intro lg hok
    have hcond : ¬ (({ c with Metadata := m₁ } : Config μ).Writers.isEmpty ∨
        ({ c with Metadata := m₁ } : Config μ).MinLevel = some zerolog.Disabled) := by
      rintro (h | h)
      · exact hw (List.isEmpty_iff.mp h)
      · exact hmin h
    rw [Config.Compile, if_neg hcond] at hok
    rcases hcl : compileWriterList reg ({ c with Metadata := m₁ } : Config μ).Writers 1 with e | ws
    · rw [hcl] at hok
      cases hok
    · rw [hcl] at hok
      have hlg := (Except.ok.injEq _ _).mp hok
      have hfields : lg.fields = sortedMetaFields m₁ := by
        rw [← hlg]
        simp only
        rw [if_pos (List.length_pos.mpr hne)]
      have hsome : ∀ k ∈ List.insertionSort (fun a b : String => a ≤ b) (m₁.map Prod.fst),
          ∃ v, m₁.lookup k = some v := fun k hk =>
        lookup_isSome_of_mem_keys ((List.perm_insertionSort _ _).mem_iff.mp hk)
      have hmap : lg.fields.map Prod.fst =
          List.insertionSort (fun a b : String => a ≤ b) (m₁.map Prod.fst) := by
        rw [hfields, sortedMetaFields]
        exact map_fst_filterMap_lookup m₁ _ hsome
      refine ⟨hmap, ?_, ?_⟩
      · rw [hmap]
        exact List.sorted_insertionSort _ _
      · intro k v hkv
        rw [hfields, sortedMetaFields] at hkv
        obtain ⟨b, _, hb⟩ := List.mem_filterMap.mp hkv
        rcases hlook : m₁.lookup b with _ | v'
        · rw [hlook] at hb
          cases hb
        · rw [hlook] at hb
          simp only [Option.map_some'] at hb
          obtain ⟨hbk, hbv⟩ := Prod.mk.injEq .. ▸ (Option.some.injEq _ _).mp hb
          rw [← hbk, hlook, hbv]

/-- Witness for `metadata_sorted_deterministic`: two iteration orders of
the same two-key metadata map compile identically, and the compiled
fields of the stdout configuration carry the keys in sorted order. -/
theorem metadata_sorted_deterministic_witness :
    Config.Compile
        ({ Writers := [{ Type' := WriterTypeStdout }],
           Metadata := [("b", 0), ("a", 1)] } : Config Nat) writerCompilers =
      Config.Compile
        ({ Writers := [{ Type' := WriterTypeStdout }],
           Metadata := [("a", 1), ("b", 0)] } : Config Nat) writerCompilers ∧
    (sortedMetaFields [("b", (0 : Nat)), ("a", 1)]).map Prod.fst =
      List.insertionSort (fun a b : String => a ≤ b) ["b", "a"] := by
  have h := metadata_sorted_deterministic writerCompilers
    ({ Writers := [{ Type' := WriterTypeStdout }] } : Config Nat)
    [("b", (0 : Nat)), ("a", 1)] [("a", 1), ("b", 0)]
    (by decide) (List.Perm.swap _ _ _) (by decide) (by decide) (by decide)
  have hok : Config.Compile
      ({ Writers := [{ Type' := WriterTypeStdout }],
         Metadata := [("b", (0 : Nat)), ("a", 1)] } : Config Nat) writerCompilers =
      .ok { sink := some .stdout,
            hasTimestamp := true,
            hasCaller := false,
            fields := sortedMetaFields [("b", 0), ("a", 1)],
            level := zerolog.TraceLevel } := rfl
  exact ⟨h.1, (h.2 _ hok).1⟩

end zeroconfig
